import Mathlib

/-!
Verification of the peer-side chaincode session handler
(`src/openchain/chaincode/handler.go`).

The Go source is shallowly embedded: byte strings (`[]byte`) are modelled
as `String`, protobuf payloads as a schema-typed inductive, the per-handler
tables (`txCtxs`, `uuidMap`, `isTransaction`, per-TxCtx iterator map) as
association lists, and each handler action as a pure function from its
inputs to the replies, ledger operations and state updates it produces.
External collaborators (the ledger, the crypto helper, the chaincode
support plane) are parameters, following the contracts the spec assigns
to them.
-/

namespace Chaincode

/-- The chaincode message types of the wire protocol (`pb.ChaincodeMessage_Type`). -/
inductive MsgType where
  | REGISTER | REGISTERED | INIT | READY | TRANSACTION | QUERY
  | PUT_STATE | DEL_STATE | INVOKE_CHAINCODE | INVOKE_QUERY
  | GET_STATE | RANGE_QUERY_STATE | RANGE_QUERY_STATE_NEXT | RANGE_QUERY_STATE_CLOSE
  | RESPONSE | ERROR | COMPLETED | QUERY_COMPLETED | QUERY_ERROR
deriving DecidableEq, Repr, Fintype

/-- `Type.String()` of a chaincode message type, as used in `fmt.Sprintf` calls. -/
def msgTypeName : MsgType → String
  | .REGISTER => "REGISTER"
  | .REGISTERED => "REGISTERED"
  | .INIT => "INIT"
  | .READY => "READY"
  | .TRANSACTION => "TRANSACTION"
  | .QUERY => "QUERY"
  | .PUT_STATE => "PUT_STATE"
  | .DEL_STATE => "DEL_STATE"
  | .INVOKE_CHAINCODE => "INVOKE_CHAINCODE"
  | .INVOKE_QUERY => "INVOKE_QUERY"
  | .GET_STATE => "GET_STATE"
  | .RANGE_QUERY_STATE => "RANGE_QUERY_STATE"
  | .RANGE_QUERY_STATE_NEXT => "RANGE_QUERY_STATE_NEXT"
  | .RANGE_QUERY_STATE_CLOSE => "RANGE_QUERY_STATE_CLOSE"
  | .RESPONSE => "RESPONSE"
  | .ERROR => "ERROR"
  | .COMPLETED => "COMPLETED"
  | .QUERY_COMPLETED => "QUERY_COMPLETED"
  | .QUERY_ERROR => "QUERY_ERROR"

/-- FSM states, named after the source constants (handler.go lines 40-50). -/
inductive FsmState where
  | createdstate | establishedstate | initstate | readystate
  | transactionstate | busyinitstate | busyxactstate | endstate
deriving DecidableEq, Repr, Fintype

/-- Schema-typed message payloads.  Serialization is opaque; `raw` stands for
an uninterpreted byte string (keys, values, error texts, query results).
`proto.Unmarshal` into a given schema succeeds exactly when the payload was
built with the matching constructor. -/
inductive Payload where
  | raw (s : String)
  | rangeQueryState (startKey endKey : String)
  | rangeQueryStateNext (id : String)
  | rangeQueryStateClose (id : String)
  | putStateInfo (key : String) (value : String)
  | chaincodeSpec (name : String)
  | rangeQueryResponse (keysAndValues : List (String × String)) (hasMore : Bool) (id : String)
  | chaincodeInput (function : String) (args : List String)
  | chaincodeID (name : String)
  | empty
deriving DecidableEq, Repr

/-- `pb.ChaincodeMessage`: Type, Uuid, Payload. -/
structure ChaincodeMessage where
  type : MsgType
  uuid : String
  payload : Payload
deriving DecidableEq, Repr

/-- The view of a payload as an uninterpreted byte string, as in Go's
`string(msg.Payload)` on a raw payload. -/
def Payload.asRaw : Payload → String
  | .raw s => s
  | _ => ""

/-- The FSM transition table of `newChaincodeSupportHandler`
(handler.go lines 317-358), as a partial function:
`none` means no transition with this event is defined in the current state. -/
def transition : FsmState → MsgType → Option FsmState
  | .createdstate, .REGISTER => some .establishedstate
  | .establishedstate, .INIT => some .initstate
  | .establishedstate, .READY => some .readystate
  | .readystate, .TRANSACTION => some .transactionstate
  | .transactionstate, .PUT_STATE => some .busyxactstate
  | .transactionstate, .DEL_STATE => some .busyxactstate
  | .transactionstate, .INVOKE_CHAINCODE => some .busyxactstate
  | .initstate, .PUT_STATE => some .busyinitstate
  | .initstate, .DEL_STATE => some .busyinitstate
  | .initstate, .INVOKE_CHAINCODE => some .busyinitstate
  | .initstate, .COMPLETED => some .readystate
  | .readystate, .COMPLETED => some .readystate
  | .transactionstate, .COMPLETED => some .readystate
  | .readystate, .GET_STATE => some .readystate
  | .initstate, .GET_STATE => some .initstate
  | .busyinitstate, .GET_STATE => some .busyinitstate
  | .transactionstate, .GET_STATE => some .transactionstate
  | .busyxactstate, .GET_STATE => some .busyxactstate
  | .readystate, .RANGE_QUERY_STATE => some .readystate
  | .initstate, .RANGE_QUERY_STATE => some .initstate
  | .busyinitstate, .RANGE_QUERY_STATE => some .busyinitstate
  | .transactionstate, .RANGE_QUERY_STATE => some .transactionstate
  | .busyxactstate, .RANGE_QUERY_STATE => some .busyxactstate
  | .readystate, .RANGE_QUERY_STATE_NEXT => some .readystate
  | .initstate, .RANGE_QUERY_STATE_NEXT => some .initstate
  | .busyinitstate, .RANGE_QUERY_STATE_NEXT => some .busyinitstate
  | .transactionstate, .RANGE_QUERY_STATE_NEXT => some .transactionstate
  | .busyxactstate, .RANGE_QUERY_STATE_NEXT => some .busyxactstate
  | .readystate, .RANGE_QUERY_STATE_CLOSE => some .readystate
  | .initstate, .RANGE_QUERY_STATE_CLOSE => some .initstate
  | .busyinitstate, .RANGE_QUERY_STATE_CLOSE => some .busyinitstate
  | .transactionstate, .RANGE_QUERY_STATE_CLOSE => some .transactionstate
  | .busyxactstate, .RANGE_QUERY_STATE_CLOSE => some .busyxactstate
  | .initstate, .ERROR => some .endstate
  | .transactionstate, .ERROR => some .readystate
  | .busyinitstate, .ERROR => some .initstate
  | .busyxactstate, .ERROR => some .transactionstate
  | .busyinitstate, .RESPONSE => some .initstate
  | .busyxactstate, .RESPONSE => some .transactionstate
  | _, _ => none

/-- The transition table exactly as the spec states it (spec §4.2,
"Transitions (by message type)").  Written from the spec's words, to be
compared with `transition`, which is written from the source. -/
def specTransition : FsmState → MsgType → Option FsmState :=
  fun s t =>
    match t with
    | .REGISTER => if s = .createdstate then some .establishedstate else none
    | .INIT => if s = .establishedstate then some .initstate else none
    | .READY => if s = .establishedstate then some .readystate else none
    | .TRANSACTION => if s = .readystate then some .transactionstate else none
    | .PUT_STATE | .DEL_STATE | .INVOKE_CHAINCODE =>
      if s = .transactionstate then some .busyxactstate
      else if s = .initstate then some .busyinitstate
      else none
    | .RESPONSE =>
      if s = .busyinitstate then some .initstate
      else if s = .busyxactstate then some .transactionstate
      else none
    | .ERROR =>
      if s = .initstate then some .endstate
      else if s = .busyinitstate then some .initstate
      else if s = .transactionstate then some .readystate
      else if s = .busyxactstate then some .transactionstate
      else none
    | .COMPLETED =>
      if s = .initstate ∨ s = .readystate ∨ s = .transactionstate
      then some .readystate else none
    | .GET_STATE | .RANGE_QUERY_STATE | .RANGE_QUERY_STATE_NEXT | .RANGE_QUERY_STATE_CLOSE =>
      if s = .readystate ∨ s = .initstate ∨ s = .busyinitstate ∨
         s = .transactionstate ∨ s = .busyxactstate
      then some s else none
    | _ => none

example : transition .initstate .ERROR = some .endstate := by decide
example : ∀ s t, transition s t = specTransition s t := by decide

/-! ### Crypto mediator (`encryptOrDecrypt`, handler.go lines 170-221) -/

/-- `pb.Transaction_Type` values relevant to the crypto mediator. -/
inductive TxType where
  | UNDEFINED | CHAINCODE_NEW | CHAINCODE_UPDATE
  | CHAINCODE_EXECUTE | CHAINCODE_QUERY | CHAINCODE_TERMINATE
deriving DecidableEq, Repr

/-- `Type.String()` of a transaction type. -/
def txTypeName : TxType → String
  | .UNDEFINED => "UNDEFINED"
  | .CHAINCODE_NEW => "CHAINCODE_NEW"
  | .CHAINCODE_UPDATE => "CHAINCODE_UPDATE"
  | .CHAINCODE_EXECUTE => "CHAINCODE_EXECUTE"
  | .CHAINCODE_QUERY => "CHAINCODE_QUERY"
  | .CHAINCODE_TERMINATE => "CHAINCODE_TERMINATE"

/-- The slice of `pb.Transaction` the crypto mediator consumes: its type and
opaque key material. -/
structure Transaction where
  type : TxType
  keyMaterial : String

/-- `crypto.StateEncryptor` (consumed interface): `Encrypt`/`Decrypt` over
opaque byte strings, either may fail. -/
structure StateEncryptor where
  encryptFn : String → Except String String
  decryptFn : String → Except String String

/-- The security helper (consumed interface): `GetStateEncryptor(deployTx, tx)`.
The Go method can return a nil encryptor alongside a nil error, hence the
`Option` inside `Except`. -/
structure SecHelper where
  getStateEncryptor : Transaction → Transaction → Except String (Option StateEncryptor)

/-- A transaction context entry as the crypto mediator sees it:
`transactionSecContext`, which may be nil. -/
structure TxCtxSec where
  transactionSecContext : Option Transaction

/-- The handler state the crypto mediator reads: the (possibly absent)
security helper, the deploy transaction security context, and the
`txCtxs` table keyed by UUID. -/
structure CryptoCfg where
  secHelper : Option SecHelper
  deployTXSecContext : Transaction
  txCtxs : List (String × TxCtxSec)

/-- `shortuuid` (handler.go lines 105-110). -/
def shortuuid (uuid : String) : String :=
  if uuid.length < 8 then uuid else uuid.take 8

/-- Association-list lookup (Go map read returning the zero value's
`Option`-wrapped form). -/
def alistGet {α : Type} (l : List (String × α)) (k : String) : Option α :=
  (l.find? (fun p => p.1 == k)).map Prod.snd

/-- Apply an encryptor obtained from `GetStateEncryptor t1 t2`: error mapping
for the get, the nil-encryptor check, then `Encrypt` or `Decrypt`
(handler.go lines 186-212, shared tail of the three type branches). -/
def applyStateEncryptor (h : SecHelper) (mkGetErr : String → String)
    (t1 t2 : Transaction) (encrypt : Bool) (payload : String) :
    Except String String :=
  match h.getStateEncryptor t1 t2 with
  | .error e => .error (mkGetErr e)
  | .ok none => .error "secure context returns nil encryptor for tx"
  | .ok (some enc) =>
    if encrypt then enc.encryptFn payload else enc.decryptFn payload

/-- `encryptOrDecrypt(encrypt, uuid, payload)` (handler.go lines 170-213). -/
def encryptOrDecryptM (cfg : CryptoCfg) (encrypt : Bool) (uuid : String)
    (payload : String) : Except String String :=
  match cfg.secHelper with
  | none => .ok payload
  | some h =>
    match alistGet cfg.txCtxs uuid with
    | none => .error ("[" ++ shortuuid uuid ++ "]No context for uuid " ++ uuid)
    | some txctx =>
      match txctx.transactionSecContext with
      | none => .error ("[" ++ shortuuid uuid ++ "]transaction context is nil for uuid " ++ uuid)
      | some secCtx =>
        if secCtx.type = .CHAINCODE_NEW then
          applyStateEncryptor h
            (fun e => "error getting crypto encryptor for deploy tx :" ++ e)
            cfg.deployTXSecContext cfg.deployTXSecContext encrypt payload
        else if secCtx.type = .CHAINCODE_EXECUTE ∨ secCtx.type = .CHAINCODE_QUERY then
          applyStateEncryptor h
            (fun e => "error getting crypto encryptor " ++ e)
            cfg.deployTXSecContext secCtx encrypt payload
        else
          .error ("invalid transaction type " ++ txTypeName secCtx.type)

/-- `decrypt` (handler.go line 215). -/
def decryptM (cfg : CryptoCfg) (uuid : String) (payload : String) : Except String String :=
  encryptOrDecryptM cfg false uuid payload

/-- `encrypt` (handler.go line 219). -/
def encryptM (cfg : CryptoCfg) (uuid : String) (payload : String) : Except String String :=
  encryptOrDecryptM cfg true uuid payload

/-! ### Range-scan iterators and the per-transaction iterator registry
(handler.go lines 151-168, 584-875) -/

/-- A key/value pair returned by a ledger scan. -/
abbrev KV := String × String

/-- `statemgmt.RangeScanIterator` (consumed interface): a cursor over the
key/value pairs of a ledger interval.  `Next()` advances the cursor and
reports whether an element is now current; `GetKeyValue()` reads the
current element.  The state is the current element plus the elements not
yet reached. -/
structure RangeScanIterator where
  current : Option KV
  remaining : List KV
deriving DecidableEq, Repr

/-- `Next()`: advance to the next element, reporting availability. -/
def iterNext : RangeScanIterator → Bool × RangeScanIterator
  | ⟨_, []⟩ => (false, ⟨none, []⟩)
  | ⟨_, e :: rest⟩ => (true, ⟨some e, rest⟩)

/-- `GetKeyValue()`: read the current element.  The handler only calls this
after a `Next()` that returned true, so the default is never observed. -/
def getKeyValue (it : RangeScanIterator) : KV :=
  it.current.getD ("", "")

/-- A fresh iterator over the pairs of a ledger interval, positioned before
the first element. -/
def freshIter (entries : List KV) : RangeScanIterator := ⟨none, entries⟩

/-- The `rangeQueryIteratorMap` of one transaction context: iterator id →
live iterator. -/
abbrev IterRegistry := List (String × RangeScanIterator)

/-- `getRangeQueryIterator` (handler.go lines 158-162). -/
def regGet (r : IterRegistry) (id : String) : Option RangeScanIterator :=
  alistGet r id

/-- `deleteRangeQueryIterator` (handler.go lines 164-168). -/
def regErase (r : IterRegistry) (id : String) : IterRegistry :=
  r.filter (fun p => p.1 != id)

/-- `putRangeQueryIterator` (handler.go lines 151-156); also used to reflect
the in-place mutation of the registered iterator object during a drain. -/
def regPut (r : IterRegistry) (id : String) (it : RangeScanIterator) : IterRegistry :=
  (id, it) :: regErase r id

/-- `maxRangeQueryStateLimit` (handler.go line 584). -/
def maxRangeQueryStateLimit : Nat := 100

/-- The drain loop shared by `handleRangeQueryState` (lines 662-680) and
`handleRangeQueryStateNext` (lines 764-782):
`for ; hasNext && i < limit; i++ { k,v := GetKeyValue(); decrypt v; append; hasNext = Next() }`.
Returns the collected decrypted pairs, the final `hasNext`, and the
iterator after the drain, or the decryption error together with the
iterator state at the failure point. -/
def rangeScanLoop (dec : String → Except String String) :
    Nat → RangeScanIterator → Bool →
    Except (String × RangeScanIterator) (List KV × Bool × RangeScanIterator)
  | 0, it, hasNext => .ok ([], hasNext, it)
  | n + 1, it, hasNext =>
    if hasNext then
      let kv := getKeyValue it
      match dec kv.2 with
      | .error e => .error (e, it)
      | .ok dv =>
        let step := iterNext it
        match rangeScanLoop dec n step.2 step.1 with
        | .error p => .error p
        | .ok (kvs, hn, itF) => .ok ((kv.1, dv) :: kvs, hn, itF)
    else .ok ([], hasNext, it)

/-- The ledger interface the read/write actions consume (spec §6):
`GetState`, `SetState`, `DeleteState`, `GetStateRangeScanIterator`.
Results are parameters of the model; the scan result is the list of pairs
the returned iterator will yield. -/
structure LedgerModel where
  getState : String → String → Bool → Except String String
  setStateErr : String → String → String → Option String
  deleteStateErr : String → String → Option String
  rangeScan : String → String → String → Bool → Except String (List KV)

/-- State carried across the range-query handlers of one transaction
context: its iterator registry and the number of `Close()` calls issued so
far on its iterators. -/
structure RQState where
  registry : IterRegistry
  closes : Nat
deriving DecidableEq, Repr

/-- Outcome of one range-query handler goroutine. `dropped` is the silent
drop on a duplicate in-flight request; `panics` is a Go runtime panic (nil
dereference) before any reply is sent, with the tables as the goroutine
left them. -/
inductive ReadOutcome where
  | dropped
  | sent (reply : ChaincodeMessage) (st : RQState)
  | panics (st : RQState)
deriving DecidableEq, Repr

/-- `getIsTransaction` (handler.go lines 416-423): Go map read, absent keys
read as `false`. -/
def getIsTransactionM (isTransaction : List (String × Bool)) (uuid : String) : Bool :=
  (alistGet isTransaction uuid).getD false

/-- `handleRangeQueryState` goroutine body (handler.go lines 601-704), after
`GetLedger()` succeeded.  `iterID` is the UUID `util.GenerateUUID()`
produced for the new iterator.  The registry entry always reflects the
iterator object's state after the drain, since the registered object is
mutated in place.  Marshalling a `RangeQueryStateResponse` is total here.
On a decryption failure the source evaluates `unmarshalErr.Error()` with
`unmarshalErr == nil` (line 667), a nil dereference: the goroutine panics
before `Close()` (line 671) runs. -/
def handleRangeQueryStateM (cfg : CryptoCfg) (L : LedgerModel)
    (isTransaction : List (String × Bool)) (uuidInFlight : List String)
    (ccName : String) (iterID : String) (msg : ChaincodeMessage)
    (st : RQState) : ReadOutcome :=
  if msg.uuid ∈ uuidInFlight then .dropped
  else
    match msg.payload with
    | .rangeQueryState startKey endKey =>
      let readCommitted := !getIsTransactionM isTransaction msg.uuid
      match L.rangeScan ccName startKey endKey readCommitted with
      | .error e =>
        .sent ⟨.ERROR, msg.uuid, .raw e⟩ st
      | .ok entries =>
        let step := iterNext (freshIter entries)
        match rangeScanLoop (decryptM cfg msg.uuid) maxRangeQueryStateLimit step.2 step.1 with
        | .error p =>
          .panics ⟨regPut st.registry iterID p.2, st.closes⟩
        | .ok (kvs, hasNext, itF) =>
          if hasNext then
            .sent ⟨.RESPONSE, msg.uuid, .rangeQueryResponse kvs hasNext iterID⟩
              ⟨regPut st.registry iterID itF, st.closes⟩
          else
            .sent ⟨.RESPONSE, msg.uuid, .rangeQueryResponse kvs hasNext iterID⟩
              ⟨regErase st.registry iterID, st.closes + 1⟩
    | _ => .sent ⟨.ERROR, msg.uuid, .raw "unmarshal error"⟩ st

/-- `handleRangeQueryStateNext` goroutine body (handler.go lines 721-806).
Same drain semantics, starting with `hasNext := true` on the stored
iterator; an unknown id replies ERROR "Range query iterator not found".
The same nil-`unmarshalErr` dereference (line 769) makes a decryption
failure a panic. -/
def handleRangeQueryStateNextM (cfg : CryptoCfg) (uuidInFlight : List String)
    (msg : ChaincodeMessage) (st : RQState) : ReadOutcome :=
  if msg.uuid ∈ uuidInFlight then .dropped
  else
    match msg.payload with
    | .rangeQueryStateNext id =>
      match regGet st.registry id with
      | none => .sent ⟨.ERROR, msg.uuid, .raw "Range query iterator not found"⟩ st
      | some it =>
        match rangeScanLoop (decryptM cfg msg.uuid) maxRangeQueryStateLimit it true with
        | .error p =>
          .panics ⟨regPut st.registry id p.2, st.closes⟩
        | .ok (kvs, hasNext, itF) =>
          if hasNext then
            .sent ⟨.RESPONSE, msg.uuid, .rangeQueryResponse kvs hasNext id⟩
              ⟨regPut st.registry id itF, st.closes⟩
          else
            .sent ⟨.RESPONSE, msg.uuid, .rangeQueryResponse kvs hasNext id⟩
              ⟨regErase st.registry id, st.closes + 1⟩
    | _ => .sent ⟨.ERROR, msg.uuid, .raw "unmarshal error"⟩ st

/-- `handleRangeQueryStateClose` goroutine body (handler.go lines 823-875):
close and drop the iterator when present, then reply RESPONSE with
`{HasMore: false, ID: id}` either way. -/
def handleRangeQueryStateCloseM (uuidInFlight : List String)
    (msg : ChaincodeMessage) (st : RQState) : ReadOutcome :=
  if msg.uuid ∈ uuidInFlight then .dropped
  else
    match msg.payload with
    | .rangeQueryStateClose id =>
      match regGet st.registry id with
      | some _ =>
        .sent ⟨.RESPONSE, msg.uuid, .rangeQueryResponse [] false id⟩
          ⟨regErase st.registry id, st.closes + 1⟩
      | none =>
        .sent ⟨.RESPONSE, msg.uuid, .rangeQueryResponse [] false id⟩ st
    | _ => .sent ⟨.ERROR, msg.uuid, .raw "unmarshal error"⟩ st

/-! ### GET_STATE read action (`handleGetState`, handler.go lines 524-582) -/

/-- Outcome of the `handleGetState` goroutine: the `GetState` calls issued
to the ledger, as `(chaincodeID, key, readCommitted)` triples, and the
reply frame, unless the duplicate-request guard dropped the request. -/
inductive GetStateOutcome where
  | dropped
  | sent (calls : List (String × String × Bool)) (reply : ChaincodeMessage)
deriving DecidableEq, Repr

/-- `handleGetState` goroutine body (handler.go lines 528-581), after
`GetLedger()` succeeded: read the key from the raw payload, call
`GetState(ccName, key, !IsTransaction[uuid])`, decrypt the result, and
reply RESPONSE on success or ERROR with the error text otherwise. -/
def handleGetStateM (cfg : CryptoCfg) (L : LedgerModel)
    (isTransaction : List (String × Bool)) (uuidInFlight : List String)
    (ccName : String) (msg : ChaincodeMessage) : GetStateOutcome :=
  if msg.uuid ∈ uuidInFlight then .dropped
  else
    let key := msg.payload.asRaw
    let readCommittedState := !getIsTransactionM isTransaction msg.uuid
    match L.getState ccName key readCommittedState with
    | .error e =>
      .sent [(ccName, key, readCommittedState)] ⟨.ERROR, msg.uuid, .raw e⟩
    | .ok res =>
      match decryptM cfg msg.uuid res with
      | .ok dres =>
        .sent [(ccName, key, readCommittedState)] ⟨.RESPONSE, msg.uuid, .raw dres⟩
      | .error e =>
        .sent [(ccName, key, readCommittedState)] ⟨.ERROR, msg.uuid, .raw e⟩

/-! ### Write and nested-execute action (`enterBusyState`, handler.go
lines 914-1026) -/

/-- The chaincode support plane as `enterBusyState` consumes it:
the outcome of `LaunchChaincode` and of the nested `Execute`. -/
structure SupportModel where
  launchErr : Option String
  execPayload : String
  execErr : Option String

/-- A ledger mutation or nested execution issued by the busy-state action. -/
inductive LedgerOp where
  | setStateOp (cc key value : String)
  | deleteStateOp (cc key : String)
  | executeOp (targetCC uuid : String)
deriving DecidableEq, Repr

/-- Outcome of the `enterBusyState` goroutine: the ledger mutations /
nested executions issued, and the message handed to `triggerNextState`
with its `sendToCC` flag, unless the duplicate-request guard dropped the
request. -/
structure BusyOutcome where
  ops : List LedgerOp
  trigger : Option (ChaincodeMessage × Bool)
  dropped : Bool
deriving DecidableEq, Repr

/-- `enterBusyState` goroutine body (handler.go lines 914-1026), after
`GetLedger()` succeeded: refuse write-class requests when the UUID is not
marked as a transaction, then perform the PUT_STATE / DEL_STATE /
INVOKE_CHAINCODE action and trigger RESPONSE or ERROR back through the
FSM. -/
def enterBusyStateM (cfg : CryptoCfg) (L : LedgerModel) (S : SupportModel)
    (isTransaction : List (String × Bool)) (uuidInFlight : List String)
    (ccName : String) (msg : ChaincodeMessage) : BusyOutcome :=
  if !getIsTransactionM isTransaction msg.uuid then
    { ops := [],
      trigger := some (⟨.ERROR, msg.uuid,
        .raw ("Cannot handle " ++ msgTypeName msg.type ++ " in query context")⟩, true),
      dropped := false }
  else if msg.uuid ∈ uuidInFlight then
    { ops := [], trigger := none, dropped := true }
  else if msg.type = .PUT_STATE then
    match msg.payload with
    | .putStateInfo key value =>
      match encryptM cfg msg.uuid value with
      | .error e =>
        { ops := [], trigger := some (⟨.ERROR, msg.uuid, .raw e⟩, true), dropped := false }
      | .ok pVal =>
        match L.setStateErr ccName key pVal with
        | some e =>
          { ops := [.setStateOp ccName key pVal],
            trigger := some (⟨.ERROR, msg.uuid, .raw e⟩, true), dropped := false }
        | none =>
          { ops := [.setStateOp ccName key pVal],
            trigger := some (⟨.RESPONSE, msg.uuid, .raw ""⟩, true), dropped := false }
    | _ =>
      { ops := [], trigger := some (⟨.ERROR, msg.uuid, .raw "unmarshal error"⟩, true),
        dropped := false }
  else if msg.type = .DEL_STATE then
    let key := msg.payload.asRaw
    match L.deleteStateErr ccName key with
    | some e =>
      { ops := [.deleteStateOp ccName key],
        trigger := some (⟨.ERROR, msg.uuid, .raw e⟩, true), dropped := false }
    | none =>
      { ops := [.deleteStateOp ccName key],
        trigger := some (⟨.RESPONSE, msg.uuid, .raw ""⟩, true), dropped := false }
  else if msg.type = .INVOKE_CHAINCODE then
    match msg.payload with
    | .chaincodeSpec newCC =>
      match S.launchErr with
      | some e =>
        { ops := [], trigger := some (⟨.ERROR, msg.uuid, .raw e⟩, true), dropped := false }
      | none =>
        match S.execErr with
        | some e =>
          { ops := [.executeOp newCC msg.uuid],
            trigger := some (⟨.ERROR, msg.uuid, .raw e⟩, true), dropped := false }
        | none =>
          { ops := [.executeOp newCC msg.uuid],
            trigger := some (⟨.RESPONSE, msg.uuid, .raw S.execPayload⟩, true),
            dropped := false }
    | _ =>
      { ops := [], trigger := some (⟨.ERROR, msg.uuid, .raw "unmarshal error"⟩, true),
        dropped := false }
  else
    -- other message types reach neither branch; the trigger defer fires with
    -- a nil message, which the source never does because enterBusyState is
    -- only installed for the three write-class events
    { ops := [], trigger := some (⟨.RESPONSE, msg.uuid, .raw ""⟩, true), dropped := false }

/-! ### FSM callbacks, event dispatch and `HandleMessage`
(handler.go lines 359-376, 1028-1074, 1238-1309) -/

/-- Evaluation of a Go expression that dereferences a possibly-nil pointer:
`nilDeref` is the runtime panic. -/
inductive GoEval (α : Type) where
  | val (a : α)
  | nilDeref
deriving DecidableEq, Repr

/-- Reading a field of a possibly-nil Go pointer. -/
def goField {α β : Type} (p : Option α) (f : α → β) : GoEval β :=
  match p with
  | none => .nilDeref
  | some a => .val (f a)

/-- Side effects an FSM callback or `HandleMessage` performs, in order. -/
inductive HMEffect where
  | serialSendEff (m : ChaincodeMessage)
  | notifyEff (m : ChaincodeMessage)
  | deregisterEff
  | startupNotifyEff (b : Bool)
  | markTxEff (uuid : String) (b : Bool)
  | delIsTxEff (uuid : String)
  | asyncReadEff (t : MsgType) (uuid : String)
  | asyncBusyEff (uuid : String)
  | asyncQueryEff (uuid : String)
deriving DecidableEq, Repr

/-- Result of one FSM callback: a Go panic, a normal return with its
effects, or a cancellation (`e.Cancel(cause)`) with the effects performed
before/around it. -/
inductive CallbackOutcome where
  | panics
  | runs (effects : List HMEffect)
  | cancels (cause : String) (effects : List HMEffect)
deriving DecidableEq, Repr

/-- `enterReadyState` (handler.go lines 1050-1060).  The first event
argument is the result of the `e.Args[0].(*pb.ChaincodeMessage)` type
assertion: `none` when the assertion failed (nil `msg`).  The source reads
`msg.Uuid` (line 1053) before checking `ok` (line 1054), so a failed
assertion is a nil dereference; the cancellation branch is unreachable. -/
def enterReadyStateCB (arg : Option ChaincodeMessage) : CallbackOutcome :=
  match goField arg (fun m => m.uuid) with
  | .nilDeref => .panics
  | .val uuid =>
    match arg with
    | none => .cancels "Received unexpected message type" []
    | some m => .runs [.delIsTxEff uuid, .notifyEff m]

/-- `enterEndState` (handler.go lines 1062-1074): same pre-check
dereference of `msg.Uuid` (line 1066); on a chaincode message it deletes
the transaction mark, notifies the UUID's waiter, cancels the event with
cause "Entered end state", and deregisters the handler (deferred). -/
def enterEndStateCB (arg : Option ChaincodeMessage) : CallbackOutcome :=
  match goField arg (fun m => m.uuid) with
  | .nilDeref => .panics
  | .val uuid =>
    match arg with
    | none => .cancels "Received unexpected message type" [.deregisterEff]
    | some m =>
      .cancels "Entered end state" [.delIsTxEff uuid, .notifyEff m, .deregisterEff]

/-- Errors an FSM `Event` call can hand back to `HandleMessage`, as the Go
`error` interface: the fsm library's no-transition and canceled signals,
each with an optional inner cause, and `other` for any further error
value. -/
inductive GoErr where
  | noTransition (inner : Option String)
  | canceled (inner : Option String)
  | other (text : String)
deriving DecidableEq, Repr

/-- The inner cause of an FSM error (`Err` field; `other` is its own text). -/
def errCause : GoErr → Option String
  | .noTransition c => c
  | .canceled c => c
  | .other s => some s

/-- Whether an error value is one the FSM event dispatch produces
(a no-transition or canceled signal). -/
def fsmProducible : GoErr → Bool
  | .noTransition _ => true
  | .canceled _ => true
  | .other _ => false

/-- `filterError` (handler.go lines 1290-1309): a `NoTransitionError` or
`CanceledError` without an inner error is swallowed; one with an inner
error is returned; any other (including nil) yields nil. -/
def filterError : Option GoErr → Option GoErr
  | none => none
  | some e =>
    match e with
    | .noTransition none => none
    | .noTransition (some c) => some (.noTransition (some c))
    | .canceled none => none
    | .canceled (some c) => some (.canceled (some c))
    | .other _ => none

/-- Result of dispatching one FSM event: the callbacks' effects in order,
the state after, and the error `Event` returns. -/
structure FsmStep where
  effects : List HMEffect
  next : FsmState
  err : Option GoErr
deriving DecidableEq, Repr

/-- `before_` callbacks (handler.go lines 360-362, 443-508).  Modelled from
the spec: the registration with the host registry (`registerHandler`,
spec §4.2 "before_REGISTER") is an external call taken to succeed, after
which REGISTERED is sent; the other before callbacks never cancel on a
chaincode message. -/
def beforeCB (t : MsgType) : List HMEffect :=
  match t with
  | .REGISTER => [.serialSendEff ⟨.REGISTERED, "", .empty⟩]
  | .INIT => [.startupNotifyEff true]
  | _ => []

/-- `after_` callbacks (handler.go lines 363-369, 511-911): the four read
events launch their goroutine; the write-class `after` callbacks do
nothing (the work is in `enter_busy`). -/
def afterCB (t : MsgType) (uuid : String) : List HMEffect :=
  match t with
  | .GET_STATE | .RANGE_QUERY_STATE | .RANGE_QUERY_STATE_NEXT | .RANGE_QUERY_STATE_CLOSE =>
    [.asyncReadEff t uuid]
  | _ => []

/-- `enter_` callbacks (handler.go lines 370-375, 1028-1074), on the actual
event argument (always the handled message, hence `some msg`): effects and
an optional cancellation cause. -/
def enterCB (dst : FsmState) (msg : ChaincodeMessage) : List HMEffect × Option String :=
  match dst with
  | .establishedstate => ([.startupNotifyEff true], none)
  | .initstate =>
    if msg.type = .INIT then
      ([.markTxEff msg.uuid true, .serialSendEff msg], none)
    else ([], none)
  | .readystate =>
    match enterReadyStateCB (some msg) with
    | .runs effs => (effs, none)
    | .cancels c effs => (effs, some c)
    | .panics => ([], none)
  | .busyinitstate => ([.asyncBusyEff msg.uuid], none)
  | .busyxactstate => ([.asyncBusyEff msg.uuid], none)
  | .endstate =>
    match enterEndStateCB (some msg) with
    | .runs effs => (effs, none)
    | .cancels c effs => (effs, some c)
    | .panics => ([], none)
  | _ => ([], none)

/-- Modelled from the spec: the event dispatch of the external FSM library
(`github.com/looplab/fsm`, not part of this repository), per spec §9
"FSM library substitute": a data-driven transition with `before`, `enter`
and `after` callback points; a self-loop yields a no-transition signal
carrying the callbacks' cancellation cause (if any), a completed
transition yields a canceled signal exactly when a callback cancelled
with a cause; only signals with a cause propagate. -/
def fsmEvent (src dst : FsmState) (msg : ChaincodeMessage) : FsmStep :=
  let beffs := beforeCB msg.type
  if dst = src then
    { effects := beffs ++ afterCB msg.type msg.uuid,
      next := src,
      err := some (.noTransition none) }
  else
    let entered := enterCB dst msg
    { effects := beffs ++ entered.1 ++ afterCB msg.type msg.uuid,
      next := dst,
      err := entered.2.map (fun c => .canceled (some c)) }

/-- The handler state `HandleMessage` consults: the FSM's current state and
the `isTransaction` table. -/
structure HMState where
  current : FsmState
  isTransaction : List (String × Bool)
deriving DecidableEq, Repr

/-- Result of `HandleMessage`: the state after, the effects performed, and
the returned error. -/
structure HMResult where
  next : FsmState
  isTransaction : List (String × Bool)
  effects : List HMEffect
  err : Option GoErr
deriving DecidableEq, Repr

/-- Go map delete on the `isTransaction` table. -/
def delIsTx (m : List (String × Bool)) (uuid : String) : List (String × Bool) :=
  m.filter (fun p => p.1 != uuid)

/-- Replay the table updates a list of effects performs. -/
def applyEffects (m : List (String × Bool)) : List HMEffect → List (String × Bool)
  | [] => m
  | .markTxEff u b :: rest => applyEffects ((u, b) :: delIsTx m u) rest
  | .delIsTxEff u :: rest => applyEffects (delIsTx m u) rest
  | _ :: rest => applyEffects m rest

/-- The write-class message types. -/
def isWriteType (t : MsgType) : Bool :=
  t = .PUT_STATE || t = .DEL_STATE || t = .INVOKE_CHAINCODE

/-- `HandleMessage` (handler.go lines 1238-1287): the out-of-band types
QUERY_COMPLETED (re-encrypt or rewrite to QUERY_ERROR, clear the
transaction mark, notify), QUERY_ERROR (clear, notify) and INVOKE_QUERY
(launch the nested query) are handled before the FSM; otherwise a message
the FSM cannot accept yields an error — with one ERROR frame first when it
is a write-class request in query context — and an acceptable message is
dispatched through the FSM with `filterError` applied to the result. -/
def handleMessageM (cfg : CryptoCfg) (st : HMState) (msg : ChaincodeMessage) : HMResult :=
  if msg.type = .QUERY_COMPLETED then
    let m1 := delIsTx st.isTransaction msg.uuid
    match encryptM cfg msg.uuid msg.payload.asRaw with
    | .ok encPayload =>
      { next := st.current, isTransaction := m1,
        effects := [.delIsTxEff msg.uuid, .notifyEff ⟨.QUERY_COMPLETED, msg.uuid, .raw encPayload⟩],
        err := none }
    | .error e =>
      { next := st.current, isTransaction := m1,
        effects := [.delIsTxEff msg.uuid,
          .notifyEff ⟨.QUERY_ERROR, msg.uuid, .raw ("Failed to encrypt query result " ++ e)⟩],
        err := none }
  else if msg.type = .QUERY_ERROR then
    { next := st.current, isTransaction := delIsTx st.isTransaction msg.uuid,
      effects := [.delIsTxEff msg.uuid, .notifyEff msg], err := none }
  else if msg.type = .INVOKE_QUERY then
    { next := st.current, isTransaction := st.isTransaction,
      effects := [.asyncQueryEff msg.uuid], err := none }
  else
    match transition st.current msg.type with
    | none =>
      if isWriteType msg.type then
        if getIsTransactionM st.isTransaction msg.uuid then
          { next := st.current, isTransaction := st.isTransaction, effects := [],
            err := some (.other "FSM cannot handle message") }
        else
          { next := st.current, isTransaction := st.isTransaction,
            effects := [.serialSendEff ⟨.ERROR, msg.uuid,
              .raw ("[" ++ msg.uuid ++ "]Cannot handle " ++ msgTypeName msg.type ++
                " in query context")⟩],
            err := some (.other ("Cannot handle " ++ msgTypeName msg.type ++
              " in query context")) }
      else
        { next := st.current, isTransaction := st.isTransaction, effects := [],
          err := some (.other "FSM cannot handle message") }
    | some dst =>
      let step := fsmEvent st.current dst msg
      { next := step.next,
        isTransaction := applyEffects st.isTransaction step.effects,
        effects := step.effects,
        err := filterError step.err }

/-- The stream pump's reaction to `HandleMessage`'s return (handler.go
lines 286-290): a non-nil error ends the stream and the session. -/
def pumpEndsSession (e : Option GoErr) : Bool := e.isSome

/-! ### A whole range scan: RANGE_QUERY_STATE followed by
RANGE_QUERY_STATE_NEXT until `HasMore = false` -/

/-- A crypto configuration with no security helper: payloads pass through
the mediator unchanged. -/
def plainCfg : CryptoCfg :=
  { secHelper := none,
    deployTXSecContext := ⟨.CHAINCODE_NEW, ""⟩,
    txCtxs := [] }

/-- A ledger whose range scan yields exactly `entries`. -/
def constLedger (entries : List KV) : LedgerModel :=
  { getState := fun _ _ _ => .ok "",
    setStateErr := fun _ _ _ => none,
    deleteStateErr := fun _ _ => none,
    rangeScan := fun _ _ _ _ => .ok entries }

/-- The opening RANGE_QUERY_STATE request of a scan. -/
def scanMsg (uuid : String) : ChaincodeMessage :=
  ⟨.RANGE_QUERY_STATE, uuid, .rangeQueryState "startK" "endK"⟩

/-- A RANGE_QUERY_STATE_NEXT request for iterator `id`. -/
def nextMsg (uuid id : String) : ChaincodeMessage :=
  ⟨.RANGE_QUERY_STATE_NEXT, uuid, .rangeQueryStateNext id⟩

/-- The frames a worker that keeps sending RANGE_QUERY_STATE_NEXT while
`HasMore` is set receives after the opening frame, each as its key/value
pairs and `HasMore` flag, together with the terminal registry state. -/
def scanSessionAux (uuid id : String) :
    Nat → RQState → List (List KV × Bool) × RQState
  | 0, st => ([], st)
  | n + 1, st =>
    match handleRangeQueryStateNextM plainCfg [] (nextMsg uuid id) st with
    | .sent reply st2 =>
      match reply.payload with
      | .rangeQueryResponse kvs hasMore _ =>
        if hasMore then
          let rest := scanSessionAux uuid id n st2
          ((kvs, true) :: rest.1, rest.2)
        else ([(kvs, false)], st2)
      | _ => ([], st2)
    | .dropped => ([], st)
    | .panics st2 => ([], st2)

/-- A complete scan over a ledger interval holding `entries`, driven by a
worker that opens with RANGE_QUERY_STATE and follows `HasMore` with
RANGE_QUERY_STATE_NEXT: the reply frames in order and the final registry
state of the transaction context (which started with no iterators). -/
def scanSession (entries : List KV) (id : String) :
    List (List KV × Bool) × RQState :=
  match handleRangeQueryStateM plainCfg (constLedger entries) [] [] "cc" id
      (scanMsg "u1") ⟨[], 0⟩ with
  | .sent reply st2 =>
    match reply.payload with
    | .rangeQueryResponse kvs hasMore _ =>
      if hasMore then
        let rest := scanSessionAux "u1" id entries.length st2
        ((kvs, true) :: rest.1, rest.2)
      else ([(kvs, false)], st2)
    | _ => ([], st2)
  | .dropped => ([], ⟨[], 0⟩)
  | .panics st2 => ([], st2)

/-- The paging the spec describes for a scan over `entries` (spec §3
invariants and §8 round-trip properties): pages of at most
`maxRangeQueryStateLimit` pairs, `HasMore` set on every page but the
last. -/
def pagesOf (entries : List KV) : List (List KV × Bool) :=
  if _h : entries.length ≤ maxRangeQueryStateLimit then
    [(entries, false)]
  else
    (entries.take maxRangeQueryStateLimit, true) ::
      pagesOf (entries.drop maxRangeQueryStateLimit)
termination_by entries.length
decreasing_by
  simp only [List.length_drop, maxRangeQueryStateLimit] at _h ⊢
  omega

example : scanSession [("a", "1"), ("b", "2")] "it1" =
    ([([("a", "1"), ("b", "2")], false)], ⟨[], 1⟩) := by decide
example : pagesOf [("a", "1"), ("b", "2")] = [([("a", "1"), ("b", "2")], false)] := by
  rw [pagesOf]
  decide

/-! ### Lemmas about the drain loop and the scan session -/

/-- The iterator object after draining `n` elements of the available list
`A` (current element first): positioned on `A[n]` if it exists. -/
def iterAfter (A : List KV) (n : Nat) : RangeScanIterator :=
  match A.drop n with
  | [] => ⟨none, []⟩
  | x :: xs => ⟨some x, xs⟩

theorem rangeScanLoop_false (dec : String → Except String String) (n : Nat)
    (it : RangeScanIterator) :
    rangeScanLoop dec n it false = .ok ([], false, it) := by
  cases n <;> simp [rangeScanLoop]

theorem decrypt_plain (u v : String) : decryptM plainCfg u v = .ok v := rfl

theorem rangeScanLoop_spec (dec : String → Except String String)
    (hdec : ∀ v, dec v = .ok v) :
    ∀ (n : Nat) (e : KV) (rest : List KV),
    rangeScanLoop dec n ⟨some e, rest⟩ true =
      .ok ((e :: rest).take n, decide (n < (e :: rest).length), iterAfter (e :: rest) n) := by
  intro n
  induction n with
  | zero =>
    intro e rest
    simp [rangeScanLoop, iterAfter]
  | succ n ih =>
    intro e rest
    cases rest with
    | nil =>
      simp [rangeScanLoop, hdec, getKeyValue, iterNext, rangeScanLoop_false, iterAfter]
    | cons r rs =>
      simp only [rangeScanLoop, if_true, hdec, getKeyValue, Option.getD_some, iterNext, ih,
        List.take_succ_cons, List.length_cons]
      rw [iterAfter, iterAfter]
      simp only [List.drop_succ_cons]
      simp [Nat.succ_lt_succ_iff]

theorem regGet_singleton (id : String) (it : RangeScanIterator) :
    regGet [(id, it)] id = some it := by
  simp [regGet, alistGet]

theorem regErase_singleton (id : String) (it : RangeScanIterator) :
    regErase [(id, it)] id = [] := by
  simp [regErase]

theorem regPut_singleton (id : String) (it it2 : RangeScanIterator) :
    regPut [(id, it)] id it2 = [(id, it2)] := by
  simp [regPut, regErase]

theorem handleRangeQueryStateNextM_spec (u id : String) (e : KV) (rest : List KV)
    (c : Nat) :
    handleRangeQueryStateNextM plainCfg [] (nextMsg u id) ⟨[(id, ⟨some e, rest⟩)], c⟩ =
      if (e :: rest).length ≤ maxRangeQueryStateLimit then
        .sent ⟨.RESPONSE, u, .rangeQueryResponse (e :: rest) false id⟩ ⟨[], c + 1⟩
      else
        .sent ⟨.RESPONSE, u,
            .rangeQueryResponse ((e :: rest).take maxRangeQueryStateLimit) true id⟩
          ⟨[(id, iterAfter (e :: rest) maxRangeQueryStateLimit)], c⟩ := by
  have hdec : ∀ v, decryptM plainCfg u v = .ok v := fun _ => rfl
  by_cases h : (e :: rest).length ≤ maxRangeQueryStateLimit
  · rw [if_pos h]
    have h' : rest.length + 1 ≤ maxRangeQueryStateLimit := by simpa using h
    have hd : ¬ maxRangeQueryStateLimit < rest.length + 1 := by omega
    simp [handleRangeQueryStateNextM, nextMsg, regGet_singleton,
      rangeScanLoop_spec _ hdec, hd, regErase_singleton, List.take_of_length_le h]
  · rw [if_neg h]
    have h' : ¬ rest.length + 1 ≤ maxRangeQueryStateLimit := by simpa using h
    have hd : maxRangeQueryStateLimit < rest.length + 1 := by omega
    simp [handleRangeQueryStateNextM, nextMsg, regGet_singleton,
      rangeScanLoop_spec _ hdec, hd, regPut_singleton]

theorem scanSessionAux_spec (u id : String) :
    ∀ (n : Nat) (e : KV) (rest : List KV) (c : Nat),
    (e :: rest).length ≤ n →
    scanSessionAux u id n ⟨[(id, ⟨some e, rest⟩)], c⟩ =
      (pagesOf (e :: rest), ⟨[], c + 1⟩) := by
  intro n
  induction n with
  | zero =>
    intro e rest c hn
    simp at hn
  | succ n ih =>
    intro e rest c hn
    by_cases h : (e :: rest).length ≤ maxRangeQueryStateLimit
    · have h2 := handleRangeQueryStateNextM_spec u id e rest c
      rw [if_pos h] at h2
      rw [pagesOf, dif_pos h]
      simp [scanSessionAux, h2]
    · have h2 := handleRangeQueryStateNextM_spec u id e rest c
      rw [if_neg h] at h2
      have hne : (e :: rest).drop maxRangeQueryStateLimit ≠ [] := by
        simp only [ne_eq, List.drop_eq_nil_iff, not_le] at *
        omega
      obtain ⟨x, xs, hxx⟩ := List.exists_cons_of_ne_nil hne
      have hiter : iterAfter (e :: rest) maxRangeQueryStateLimit = ⟨some x, xs⟩ := by
        rw [iterAfter, hxx]
      have hrec : (x :: xs).length ≤ n := by
        have hdl : ((e :: rest).drop maxRangeQueryStateLimit).length =
            (e :: rest).length - maxRangeQueryStateLimit := by simp
        rw [hxx] at hdl
        simp only [List.length_cons, maxRangeQueryStateLimit] at *
        omega
      rw [hiter] at h2
      rw [pagesOf, dif_neg h, hxx]
      simp [scanSessionAux, h2, ih x xs c hrec]

theorem scanSession_spec (entries : List KV) (id : String) :
    scanSession entries id = (pagesOf entries, ⟨[], 1⟩) := by
  cases entries with
  | nil =>
    rw [pagesOf]
    simp [scanSession, handleRangeQueryStateM, scanMsg, constLedger, freshIter, iterNext,
      rangeScanLoop_false, regErase, maxRangeQueryStateLimit]
  | cons e rest =>
    have hdec : ∀ v, decryptM plainCfg "u1" v = .ok v := fun _ => rfl
    by_cases h : (e :: rest).length ≤ maxRangeQueryStateLimit
    · have h' : rest.length + 1 ≤ maxRangeQueryStateLimit := by simpa using h
      have hd : ¬ maxRangeQueryStateLimit < rest.length + 1 := by omega
      rw [pagesOf, dif_pos h]
      simp [scanSession, handleRangeQueryStateM, scanMsg, constLedger, freshIter, iterNext,
        rangeScanLoop_spec _ hdec, hd, regErase, List.take_of_length_le h]
    · have h' : ¬ rest.length + 1 ≤ maxRangeQueryStateLimit := by simpa using h
      have hd : maxRangeQueryStateLimit < rest.length + 1 := by omega
      have hne : (e :: rest).drop maxRangeQueryStateLimit ≠ [] := by
        simp only [ne_eq, List.drop_eq_nil_iff, not_le] at *
        omega
      obtain ⟨x, xs, hxx⟩ := List.exists_cons_of_ne_nil hne
      have hiter : iterAfter (e :: rest) maxRangeQueryStateLimit = ⟨some x, xs⟩ := by
        rw [iterAfter, hxx]
      have hrec : (x :: xs).length ≤ (e :: rest).length := by
        have hdl : ((e :: rest).drop maxRangeQueryStateLimit).length =
            (e :: rest).length - maxRangeQueryStateLimit := by simp
        rw [hxx] at hdl
        simp only [List.length_cons, maxRangeQueryStateLimit] at *
        omega
      have haux := scanSessionAux_spec "u1" id (e :: rest).length x xs 0 hrec
      simp only [List.length_cons] at haux
      rw [pagesOf, dif_neg h]
      simp only [scanSession, handleRangeQueryStateM, scanMsg, constLedger, freshIter,
        iterNext, rangeScanLoop_spec _ hdec, hiter, regPut, regErase]
      simp only [List.length_cons]
      simp [hd, haux, hxx]

theorem pagesOf_length_le :
    ∀ (A : List KV), ∀ f ∈ pagesOf A, f.1.length ≤ maxRangeQueryStateLimit := by
  intro A
  induction A using pagesOf.induct with
  | case1 A h =>
    rw [pagesOf, dif_pos h]
    intro f hf
    simp only [List.mem_singleton] at hf
    subst hf
    exact h
  | case2 A h ih =>
    rw [pagesOf, dif_neg h]
    intro f hf
    rcases List.mem_cons.mp hf with h1 | h2
    · subst h1
      simp [List.length_take]
    · exact ih f h2

theorem pagesOf_flatten : ∀ (A : List KV), ((pagesOf A).map Prod.fst).flatten = A := by
  intro A
  induction A using pagesOf.induct with
  | case1 A h =>
    rw [pagesOf, dif_pos h]
    simp
  | case2 A h ih =>
    rw [pagesOf, dif_neg h]
    simp [ih, List.take_append_drop]

theorem pagesOf_split : ∀ (A : List KV), ∃ pre lastKVs,
    pagesOf A = pre ++ [(lastKVs, false)] ∧
    ∀ f ∈ pre, f.1.length = maxRangeQueryStateLimit ∧ f.2 = true := by
  intro A
  induction A using pagesOf.induct with
  | case1 A h =>
    refine ⟨[], A, ?_, by simp⟩
    rw [pagesOf, dif_pos h]
    simp
  | case2 A h ih =>
    obtain ⟨pre, lastKVs, heq, hpre⟩ := ih
    refine ⟨(A.take maxRangeQueryStateLimit, true) :: pre, lastKVs, ?_, ?_⟩
    · rw [pagesOf, dif_neg h, heq]
      simp
    · intro f hf
      rcases List.mem_cons.mp hf with h1 | h2
      · subst h1
        refine ⟨?_, rfl⟩
        simp only [List.length_take]
        omega
      · exact hpre f h2

theorem pagesOf_small (A : List KV) (h : A.length < maxRangeQueryStateLimit) :
    pagesOf A = [(A, false)] := by
  rw [pagesOf, dif_pos (le_of_lt h)]

/-- An encryptor whose decryption always fails, for exercising the
mid-scan decryption-failure path. -/
def failingEncryptor : StateEncryptor :=
  { encryptFn := fun p => .ok p, decryptFn := fun _ => .error "decryption failed" }

/-- A security helper handing out `failingEncryptor`. -/
def failingSecHelper : SecHelper :=
  { getStateEncryptor := fun _ _ => .ok (some failingEncryptor) }

/-- A crypto configuration under which decrypting any value for uuid "u1"
(an EXECUTE transaction) fails. -/
def failingCfg : CryptoCfg :=
  { secHelper := some failingSecHelper,
    deployTXSecContext := ⟨.CHAINCODE_NEW, "k"⟩,
    txCtxs := [("u1", ⟨some ⟨.CHAINCODE_EXECUTE, "k"⟩⟩)] }

/-! ### The claims -/

/-- C1: For every PUT_STATE, DEL_STATE, or INVOKE_CHAINCODE message whose
UUID is not marked as a transaction, `enterBusyState` replies with an
ERROR message whose payload is the text "Cannot handle <Type> in query
context" and triggers the FSM back to the parent state (ERROR from
busyxact leads to transaction, from busyinit to init), and no ledger
mutation (SetState, DeleteState) or nested Execute is issued for that
UUID. -/
theorem C1_busy_query_context_guard
    (cfg : CryptoCfg) (L : LedgerModel) (S : SupportModel)
    (isTransaction : List (String × Bool)) (uuidInFlight : List String)
    (ccName : String) (msg : ChaincodeMessage)
    (htype : msg.type = .PUT_STATE ∨ msg.type = .DEL_STATE ∨ msg.type = .INVOKE_CHAINCODE)
    (hq : getIsTransactionM isTransaction msg.uuid = false) :
    enterBusyStateM cfg L S isTransaction uuidInFlight ccName msg =
      { ops := [],
        trigger := some (⟨.ERROR, msg.uuid,
          .raw ("Cannot handle " ++ msgTypeName msg.type ++ " in query context")⟩, true),
        dropped := false }
    ∧ transition .busyxactstate .ERROR = some .transactionstate
    ∧ transition .busyinitstate .ERROR = some .initstate := by
  refine ⟨?_, rfl, rfl⟩
  rw [enterBusyStateM, hq]
  simp

/-- Witness for C1 at a concrete input: a PUT_STATE on uuid "q1" with no
transaction mark. -/
theorem C1_witness :
    getIsTransactionM [] "q1" = false
    ∧ enterBusyStateM plainCfg (constLedger []) ⟨none, "", none⟩ [] [] "cc"
        ⟨.PUT_STATE, "q1", .putStateInfo "a" "0"⟩ =
      { ops := [],
        trigger := some (⟨.ERROR, "q1",
          .raw "Cannot handle PUT_STATE in query context"⟩, true),
        dropped := false } :=
  ⟨rfl,
   (C1_busy_query_context_guard plainCfg (constLedger []) ⟨none, "", none⟩ [] [] "cc"
      ⟨.PUT_STATE, "q1", .putStateInfo "a" "0"⟩ (Or.inl rfl) rfl).1⟩

/-- C4 (code bug evidence): when decrypting a scanned value fails, both
RANGE_QUERY_STATE and RANGE_QUERY_STATE_NEXT evaluate
`unmarshalErr.Error()` with `unmarshalErr == nil` (handler.go lines 667
and 769) and panic on the nil dereference instead of sending an ERROR
reply with the error text; the iterator is neither closed nor removed
from the registry. -/
theorem C4_decrypt_failure_panics :
    handleRangeQueryStateM failingCfg (constLedger [("k1", "v1")]) [] [] "cc" "it1"
        (scanMsg "u1") ⟨[], 0⟩ =
      .panics ⟨[("it1", ⟨some ("k1", "v1"), []⟩)], 0⟩
    ∧ handleRangeQueryStateNextM failingCfg [] (nextMsg "u1" "it1")
        ⟨[("it1", ⟨some ("k1", "v1"), []⟩)], 0⟩ =
      .panics ⟨[("it1", ⟨some ("k1", "v1"), []⟩)], 0⟩
    ∧ (regGet [("it1", (⟨some ("k1", "v1"), []⟩ : RangeScanIterator))] "it1").isSome = true := by
  refine ⟨by decide, by decide, by decide⟩

/-- C6: `handleGetState` calls the ledger's `GetState` with committed-read
mode equal to the negation of the UUID's transaction mark. -/
theorem C6_getState_readCommitted
    (cfg : CryptoCfg) (L : LedgerModel) (isTransaction : List (String × Bool))
    (uuidInFlight : List String) (ccName : String) (msg : ChaincodeMessage)
    (hflight : msg.uuid ∉ uuidInFlight) :
    ∃ reply, handleGetStateM cfg L isTransaction uuidInFlight ccName msg =
      .sent [(ccName, msg.payload.asRaw, !getIsTransactionM isTransaction msg.uuid)] reply := by
  rw [handleGetStateM, if_neg hflight]
  cases hL : L.getState ccName msg.payload.asRaw (!getIsTransactionM isTransaction msg.uuid) with
  | error e => exact ⟨⟨.ERROR, msg.uuid, .raw e⟩, by simp [hL]⟩
  | ok res =>
    cases hD : decryptM cfg msg.uuid res with
    | ok d => exact ⟨⟨.RESPONSE, msg.uuid, .raw d⟩, by simp [hL, hD]⟩
    | error e => exact ⟨⟨.ERROR, msg.uuid, .raw e⟩, by simp [hL, hD]⟩

/-- Witness for C6 at a concrete input: uuid "t1" marked as a transaction,
so the read is not committed-mode. -/
theorem C6_witness :
    ("t1" ∉ ([] : List String))
    ∧ ∃ reply, handleGetStateM plainCfg (constLedger []) [("t1", true)] [] "cc"
        ⟨.GET_STATE, "t1", .raw "a"⟩ = .sent [("cc", "a", false)] reply :=
  ⟨by simp,
   C6_getState_readCommitted plainCfg (constLedger []) [("t1", true)] [] "cc"
     ⟨.GET_STATE, "t1", .raw "a"⟩ (by simp)⟩

/-- C7: `encryptOrDecrypt`: with no security helper the payload passes
through unchanged; otherwise a missing TxCtx or nil SecContext fails; the
encryptor is derived from (DeployTxSec, DeployTxSec) for a deploy
transaction, from (DeployTxSec, SecContext) for execute or query, and any
other transaction type fails with "invalid transaction type". -/
theorem C7_encryptOrDecrypt_policy
    (cfg : CryptoCfg) (encrypt : Bool) (uuid payload : String) :
    (cfg.secHelper = none → encryptOrDecryptM cfg encrypt uuid payload = .ok payload)
    ∧ (∀ h, cfg.secHelper = some h → alistGet cfg.txCtxs uuid = none →
        encryptOrDecryptM cfg encrypt uuid payload =
          .error ("[" ++ shortuuid uuid ++ "]No context for uuid " ++ uuid))
    ∧ (∀ h txctx, cfg.secHelper = some h → alistGet cfg.txCtxs uuid = some txctx →
        txctx.transactionSecContext = none →
        encryptOrDecryptM cfg encrypt uuid payload =
          .error ("[" ++ shortuuid uuid ++ "]transaction context is nil for uuid " ++ uuid))
    ∧ (∀ h txctx secCtx, cfg.secHelper = some h → alistGet cfg.txCtxs uuid = some txctx →
        txctx.transactionSecContext = some secCtx → secCtx.type = .CHAINCODE_NEW →
        encryptOrDecryptM cfg encrypt uuid payload =
          applyStateEncryptor h
            (fun e => "error getting crypto encryptor for deploy tx :" ++ e)
            cfg.deployTXSecContext cfg.deployTXSecContext encrypt payload)
    ∧ (∀ h txctx secCtx, cfg.secHelper = some h → alistGet cfg.txCtxs uuid = some txctx →
        txctx.transactionSecContext = some secCtx →
        (secCtx.type = .CHAINCODE_EXECUTE ∨ secCtx.type = .CHAINCODE_QUERY) →
        encryptOrDecryptM cfg encrypt uuid payload =
          applyStateEncryptor h
            (fun e => "error getting crypto encryptor " ++ e)
            cfg.deployTXSecContext secCtx encrypt payload)
    ∧ (∀ h txctx secCtx, cfg.secHelper = some h → alistGet cfg.txCtxs uuid = some txctx →
        txctx.transactionSecContext = some secCtx →
        secCtx.type ≠ .CHAINCODE_NEW → secCtx.type ≠ .CHAINCODE_EXECUTE →
        secCtx.type ≠ .CHAINCODE_QUERY →
        encryptOrDecryptM cfg encrypt uuid payload =
          .error ("invalid transaction type " ++ txTypeName secCtx.type)) := by
  refine ⟨?_, ?_, ?_, ?_, ?_, ?_⟩
  · intro hnone
    simp [encryptOrDecryptM, hnone]
  · intro h hh hctx
    simp [encryptOrDecryptM, hh, hctx]
  · intro h txctx hh hctx hsec
    simp [encryptOrDecryptM, hh, hctx, hsec]
  · intro h txctx secCtx hh hctx hsec htype
    simp [encryptOrDecryptM, hh, hctx, hsec, htype]
  · intro h txctx secCtx hh hctx hsec htype
    rcases htype with ht | ht <;> simp [encryptOrDecryptM, hh, hctx, hsec, ht]
  · intro h txctx secCtx hh hctx hsec h1 h2 h3
    simp [encryptOrDecryptM, hh, hctx, hsec, h1, h2, h3]

/-- Witness for C7 at a concrete input: no security helper configured. -/
theorem C7_witness :
    (plainCfg.secHelper = none)
    ∧ encryptOrDecryptM plainCfg true "t1" "payload" = .ok "payload" :=
  ⟨rfl, (C7_encryptOrDecrypt_policy plainCfg true "t1" "payload").1 rfl⟩

/-- C8: RANGE_QUERY_STATE_CLOSE on an iterator id absent from the registry
performs no Close call (the registry state, including the close counter,
is unchanged) and replies with a RESPONSE frame carrying HasMore=false and
the echoed id, not an ERROR frame. -/
theorem C8_close_unknown_id
    (uuidInFlight : List String) (msg : ChaincodeMessage) (st : RQState) (id : String)
    (hflight : msg.uuid ∉ uuidInFlight)
    (hpayload : msg.payload = .rangeQueryStateClose id)
    (hmiss : regGet st.registry id = none) :
    handleRangeQueryStateCloseM uuidInFlight msg st =
      .sent ⟨.RESPONSE, msg.uuid, .rangeQueryResponse [] false id⟩ st := by
  simp [handleRangeQueryStateCloseM, hflight, hpayload, hmiss]

/-- Witness for C8 at a concrete input: a registry holding only iterator
"other", asked to close unknown id "x". -/
theorem C8_witness :
    ("t1" ∉ ([] : List String))
    ∧ regGet [("other", (⟨none, []⟩ : RangeScanIterator))] "x" = none
    ∧ handleRangeQueryStateCloseM [] ⟨.RANGE_QUERY_STATE_CLOSE, "t1", .rangeQueryStateClose "x"⟩
        ⟨[("other", ⟨none, []⟩)], 7⟩ =
      .sent ⟨.RESPONSE, "t1", .rangeQueryResponse [] false "x"⟩ ⟨[("other", ⟨none, []⟩)], 7⟩ :=
  ⟨by simp, by decide,
   C8_close_unknown_id [] ⟨.RANGE_QUERY_STATE_CLOSE, "t1", .rangeQueryStateClose "x"⟩
     ⟨[("other", ⟨none, []⟩)], 7⟩ "x" (by simp) rfl (by decide)⟩

/-- C9: `enterReadyState` and `enterEndState` read `msg.Uuid` before
checking that the type assertion on the event's first argument succeeded:
on a non-chaincode-message argument they panic on a nil dereference
instead of cancelling; on a chaincode message they are total, performing
their delete/notify (and, for end, deregister and cancel) work. -/
theorem C9_enter_callbacks_nil_deref :
    enterReadyStateCB none = .panics
    ∧ enterEndStateCB none = .panics
    ∧ (∀ m, enterReadyStateCB (some m) = .runs [.delIsTxEff m.uuid, .notifyEff m])
    ∧ (∀ m, enterEndStateCB (some m) =
        .cancels "Entered end state" [.delIsTxEff m.uuid, .notifyEff m, .deregisterEff]) :=
  ⟨rfl, rfl, fun _ => rfl, fun _ => rfl⟩

/-- C3: every reply frame of a range scan carries at most
`maxRangeQueryStateLimit` key/value pairs; the frames together return the
whole interval; every frame but the last carries exactly the limit with
HasMore=true and the last has HasMore=false; afterwards the iterator has
been closed exactly once and its id is absent from the registry; and an
interval with fewer than the limit entries is returned whole in the one
initial frame. -/
theorem C3_range_scan_paging (entries : List KV) (id : String) :
    (∀ f ∈ (scanSession entries id).1, f.1.length ≤ maxRangeQueryStateLimit)
    ∧ ((scanSession entries id).1.map Prod.fst).flatten = entries
    ∧ (∃ pre lastKVs, (scanSession entries id).1 = pre ++ [(lastKVs, false)] ∧
        ∀ f ∈ pre, f.1.length = maxRangeQueryStateLimit ∧ f.2 = true)
    ∧ regGet (scanSession entries id).2.registry id = none
    ∧ (scanSession entries id).2.closes = 1
    ∧ (entries.length < maxRangeQueryStateLimit →
        (scanSession entries id).1 = [(entries, false)]) := by
  rw [scanSession_spec]
  exact ⟨pagesOf_length_le entries, pagesOf_flatten entries, pagesOf_split entries,
    rfl, rfl, fun h => pagesOf_small entries h⟩

/-- Witness for C3 at a concrete input: a two-entry interval comes back in
one frame with HasMore=false. -/
theorem C3_witness :
    ([(("a" : String), ("1" : String)), (("b" : String), ("2" : String))].length <
      maxRangeQueryStateLimit)
    ∧ (scanSession [("a", "1"), ("b", "2")] "it1").1 =
        [([("a", "1"), ("b", "2")], false)] :=
  ⟨by decide,
   (C3_range_scan_paging [("a", "1"), ("b", "2")] "it1").2.2.2.2.2 (by decide)⟩

/-- C2 counterexample: (ready, QUERY_COMPLETED) is not in the FSM table,
yet HandleMessage handles it out of band and returns nil (no error, and
the only effects are the delete/notify pair, no ERROR frame), so the
claim's "every (state, message-type) pair not in the table is
inadmissible" fails as stated. -/
theorem C2_counterexample :
    transition .readystate .QUERY_COMPLETED = none
    ∧ (handleMessageM plainCfg ⟨.readystate, []⟩ ⟨.QUERY_COMPLETED, "q1", .raw "r"⟩).err = none
    ∧ (handleMessageM plainCfg ⟨.readystate, []⟩ ⟨.QUERY_COMPLETED, "q1", .raw "r"⟩).effects =
        [.delIsTxEff "q1", .notifyEff ⟨.QUERY_COMPLETED, "q1", .raw "r"⟩] :=
  ⟨rfl, rfl, rfl⟩

/-- C2 (amended): the FSM transition function equals the spec's table, and
every (state, message-type) pair not in the table whose type is FSM-driven
(not the out-of-band QUERY_COMPLETED / QUERY_ERROR / INVOKE_QUERY) is
inadmissible: HandleMessage returns an error, and for a write-class type
in query context it first sends exactly one ERROR frame. -/
theorem C2_transition_table_and_admissibility :
    (∀ s t, transition s t = specTransition s t)
    ∧ (∀ (cfg : CryptoCfg) (st : HMState) (msg : ChaincodeMessage),
        transition st.current msg.type = none →
        msg.type ≠ .QUERY_COMPLETED → msg.type ≠ .QUERY_ERROR → msg.type ≠ .INVOKE_QUERY →
        (handleMessageM cfg st msg).err.isSome = true
        ∧ (isWriteType msg.type = true →
            getIsTransactionM st.isTransaction msg.uuid = false →
            (handleMessageM cfg st msg).effects =
              [.serialSendEff ⟨.ERROR, msg.uuid,
                .raw ("[" ++ msg.uuid ++ "]Cannot handle " ++ msgTypeName msg.type ++
                  " in query context")⟩])) := by
  constructor
  · decide
  · intro cfg st msg htr h1 h2 h3
    rw [handleMessageM, if_neg h1, if_neg h2, if_neg h3, htr]
    by_cases hw : isWriteType msg.type = true
    · rw [if_pos hw]
      by_cases hq : getIsTransactionM st.isTransaction msg.uuid = true
      · rw [if_pos hq]
        exact ⟨rfl, fun _ hq0 => absurd hq (by rw [hq0]; exact Bool.false_ne_true)⟩
      · rw [if_neg hq]
        exact ⟨rfl, fun _ _ => rfl⟩
    · rw [if_neg hw]
      exact ⟨rfl, fun hw0 _ => absurd hw0 hw⟩

/-- Witness for the amended C2 at a concrete input: PUT_STATE in state
ready on an unmarked uuid replies one ERROR frame and returns an error. -/
theorem C2_witness :
    transition .readystate .PUT_STATE = none
    ∧ ((handleMessageM plainCfg ⟨.readystate, []⟩ ⟨.PUT_STATE, "q1", .raw "x"⟩).err.isSome = true
       ∧ (isWriteType .PUT_STATE = true →
           getIsTransactionM ([] : List (String × Bool)) "q1" = false →
           (handleMessageM plainCfg ⟨.readystate, []⟩ ⟨.PUT_STATE, "q1", .raw "x"⟩).effects =
             [.serialSendEff ⟨.ERROR, "q1",
               .raw ("[" ++ "q1" ++ "]Cannot handle " ++ msgTypeName .PUT_STATE ++
                 " in query context")⟩])) :=
  ⟨rfl,
   C2_transition_table_and_admissibility.2 plainCfg ⟨.readystate, []⟩
     ⟨.PUT_STATE, "q1", .raw "x"⟩ rfl (by decide) (by decide) (by decide)⟩

/-- C5: of the errors the FSM event dispatch produces (no-transition and
canceled signals), `filterError` swallows exactly those carrying no inner
cause and returns the error itself in every other case; HandleMessage's
return value on an FSM-driven message is exactly the filtered event error;
and a write-class misuse in query context additionally sends one ERROR
frame before an error is returned. -/
theorem C5_filterError_policy :
    (∀ e, fsmProducible e = true →
        filterError (some e) = if errCause e = none then none else some e)
    ∧ (∀ (src dst : FsmState) (msg : ChaincodeMessage) e,
        (fsmEvent src dst msg).err = some e → fsmProducible e = true)
    ∧ (∀ (cfg : CryptoCfg) (st : HMState) (msg : ChaincodeMessage) (dst : FsmState),
        msg.type ≠ .QUERY_COMPLETED → msg.type ≠ .QUERY_ERROR → msg.type ≠ .INVOKE_QUERY →
        transition st.current msg.type = some dst →
        (handleMessageM cfg st msg).err = filterError (fsmEvent st.current dst msg).err)
    ∧ (∀ (cfg : CryptoCfg) (st : HMState) (msg : ChaincodeMessage),
        transition st.current msg.type = none → isWriteType msg.type = true →
        getIsTransactionM st.isTransaction msg.uuid = false →
        (handleMessageM cfg st msg).effects =
          [.serialSendEff ⟨.ERROR, msg.uuid,
            .raw ("[" ++ msg.uuid ++ "]Cannot handle " ++ msgTypeName msg.type ++
              " in query context")⟩]
        ∧ (handleMessageM cfg st msg).err.isSome = true) := by
  refine ⟨?_, ?_, ?_, ?_⟩
  · intro e he
    cases e with
    | noTransition c => cases c <;> rfl
    | canceled c => cases c <;> rfl
    | other s => simp [fsmProducible] at he
  · intro src dst msg e he
    rw [fsmEvent] at he
    by_cases hds : dst = src
    · rw [if_pos hds] at he
      simp only [Option.some.injEq] at he
      rw [← he]
      rfl
    · rw [if_neg hds] at he
      cases hc : (enterCB dst msg).2 with
      | none => simp [hc] at he
      | some c =>
        simp [hc] at he
        subst he
        rfl
  · intro cfg st msg dst h1 h2 h3 htr
    rw [handleMessageM, if_neg h1, if_neg h2, if_neg h3, htr]
  · intro cfg st msg htr hw hq
    have h1 : msg.type ≠ .QUERY_COMPLETED := by
      intro hh
      rw [hh] at hw
      exact absurd hw (by decide)
    have h2 : msg.type ≠ .QUERY_ERROR := by
      intro hh
      rw [hh] at hw
      exact absurd hw (by decide)
    have h3 : msg.type ≠ .INVOKE_QUERY := by
      intro hh
      rw [hh] at hw
      exact absurd hw (by decide)
    rw [handleMessageM, if_neg h1, if_neg h2, if_neg h3, htr, if_pos hw,
      if_neg (by rw [hq]; exact Bool.false_ne_true)]
    exact ⟨rfl, rfl⟩

/-- Witness for C5 at concrete inputs: a canceled error with a cause is
returned by the filter, and an ERROR event in state transaction is
dispatched through the FSM with its (filtered) result returned. -/
theorem C5_witness :
    fsmProducible (.canceled (some "boom")) = true
    ∧ filterError (some (.canceled (some "boom"))) =
        (if errCause (.canceled (some "boom")) = none then none
         else some (.canceled (some "boom")))
    ∧ (handleMessageM plainCfg ⟨.transactionstate, []⟩ ⟨.ERROR, "t1", .raw "e"⟩).err =
        filterError (fsmEvent .transactionstate .readystate ⟨.ERROR, "t1", .raw "e"⟩).err :=
  ⟨rfl,
   C5_filterError_policy.1 (.canceled (some "boom")) rfl,
   C5_filterError_policy.2.2.1 plainCfg ⟨.transactionstate, []⟩ ⟨.ERROR, "t1", .raw "e"⟩
     .readystate (by decide) (by decide) (by decide) rfl⟩

/-- C10: an ERROR message handled in state init drives the FSM to end;
`enterEndState` cancels with the cause "Entered end state", which
`filterError` propagates, so HandleMessage returns a non-nil error and the
stream pump terminates the session — after the UUID's waiter was notified
and the handler deregistered. -/
theorem C10_error_in_init_ends_session
    (cfg : CryptoCfg) (st : HMState) (msg : ChaincodeMessage)
    (hst : st.current = .initstate) (htype : msg.type = .ERROR) :
    (handleMessageM cfg st msg).err = some (.canceled (some "Entered end state"))
    ∧ .notifyEff msg ∈ (handleMessageM cfg st msg).effects
    ∧ .deregisterEff ∈ (handleMessageM cfg st msg).effects
    ∧ pumpEndsSession (handleMessageM cfg st msg).err = true := by
  have h1 : msg.type ≠ .QUERY_COMPLETED := by rw [htype]; decide
  have h2 : msg.type ≠ .QUERY_ERROR := by rw [htype]; decide
  have h3 : msg.type ≠ .INVOKE_QUERY := by rw [htype]; decide
  have htr : transition st.current msg.type = some .endstate := by
    rw [hst, htype]
    decide
  have hstep : fsmEvent st.current .endstate msg =
      { effects := beforeCB msg.type ++
          [.delIsTxEff msg.uuid, .notifyEff msg, .deregisterEff] ++
          afterCB msg.type msg.uuid,
        next := .endstate,
        err := some (.canceled (some "Entered end state")) } := by
    have hne : ¬ (FsmState.endstate = st.current) := by
      rw [hst]
      decide
    simp [fsmEvent, hne, enterCB, enterEndStateCB, goField]
  have hmain : handleMessageM cfg st msg =
      { next := (fsmEvent st.current .endstate msg).next,
        isTransaction :=
          applyEffects st.isTransaction (fsmEvent st.current .endstate msg).effects,
        effects := (fsmEvent st.current .endstate msg).effects,
        err := filterError (fsmEvent st.current .endstate msg).err } := by
    rw [handleMessageM, if_neg h1, if_neg h2, if_neg h3, htr]
  rw [hmain, hstep, htype]
  refine ⟨rfl, ?_, ?_, rfl⟩ <;> simp [beforeCB, afterCB]

/-- Witness for C10 at a concrete input: ERROR on uuid "t1" in state init. -/
theorem C10_witness :
    ((⟨.initstate, [("t1", true)]⟩ : HMState).current = .initstate)
    ∧ (handleMessageM plainCfg ⟨.initstate, [("t1", true)]⟩ ⟨.ERROR, "t1", .raw "boom"⟩).err =
        some (.canceled (some "Entered end state")) :=
  ⟨rfl,
   (C10_error_in_init_ends_session plainCfg ⟨.initstate, [("t1", true)]⟩
      ⟨.ERROR, "t1", .raw "boom"⟩ rfl rfl).1⟩

end Chaincode
